import Mathlib

/-!
Shallow embedding of the asp8 EEPROM-programmer sketches
(`Arduino/sevenseg/sevenseg.ino` and `Arduino/ucode/ucode.ino`) and proofs
about their address-to-byte encoding functions, microcode table, data-bus
bit order, programming sweep and serial dump format.

Machine integers of the AVR target are modelled as `Nat` with explicit
truncation: `unsigned char` casts become `% 256`, 16-bit `int` / `unsigned
int` wraparound becomes `% 65536`.  On that target `int` and `unsigned int`
are 16 bits wide and `unsigned long` is 32 bits wide.
-/

namespace Sevenseg

/-- The 16-entry digit-to-segment table `digits` of `sevenseg.ino`
(common anode: a cleared bit lights a segment). -/
def digits : List Nat :=
  [0x88, 0xeb, 0x4c, 0x49, 0x2b, 0x19, 0x18, 0xcb,
   0x08, 0x09, 0x0a, 0x38, 0x9c, 0x68, 0x1c, 0x1e]

/-- The blank pattern `off` (all segments dark on a common-anode display). -/
def off : Nat := 0xff

/-- Models `unsigned int value = (unsigned int)(((int)address << 4) >> 4);`
with the AVR's 16-bit `int`: the left shift keeps the low 16 bits of
`address * 16`, and the arithmetic right shift by 4 copies the resulting
sign bit (bit 15, which is bit 11 of `address`) into the top four bits,
i.e. adds `0xF000` exactly when that bit is set.  The result is read back
as a 16-bit unsigned value. -/
def rawValue (address : Nat) : Nat :=
  let t := (address <<< 4) % 65536
  t >>> 4 + (if 0x8000 ≤ t then 0xF000 else 0)

/-- Models the negation branch `if (value & 0x8000) value = ~value + 1;`:
16-bit two's-complement negation when the sign bit is set.  Testing
`value & 0x8000` is testing bit 15, i.e. `0x8000 ≤ value` since
`rawValue` is below `0x10000`. -/
def value (address : Nat) : Nat :=
  if 0x8000 ≤ rawValue address then (65535 - rawValue address + 1) % 65536
  else rawValue address

/-- Models the `sign` variable set alongside the negation branch:
`0x08` when the value was negative, `0` otherwise. -/
def sign (address : Nat) : Nat :=
  if 0x8000 ≤ rawValue address then 0x08 else 0

/-- `getOutputByte` of `sevenseg.ino`: blank above `077777`, octal digit
extraction below `040000`, signed-decimal rendering otherwise.  `digit` is
the digit-slot selector `(address >> 12) & 3`. -/
def getOutputByte (address : Nat) : Nat :=
  let digit := (address >>> 12) &&& 3
  if 0o77777 < address then off
  else if address < 0o40000 then
    if digit = 0 then digits.getD (address &&& 7) 0
    else if digit = 1 then digits.getD ((address >>> 3) &&& 7) 0
    else if digit = 2 then digits.getD ((address >>> 6) &&& 7) 0
    else digits.getD ((address >>> 9) &&& 7) 0
  else
    if digit = 0 then digits.getD (value address % 10) 0 ^^^ sign address
    else if digit = 1 then
      if 10 ≤ value address then digits.getD (value address / 10 % 10) 0 else off
    else if digit = 2 then
      if 100 ≤ value address then digits.getD (value address / 100 % 10) 0 else off
    else
      if 1000 ≤ value address then digits.getD (value address / 1000 % 10) 0 else off

end Sevenseg

namespace Ucode

/-! Control signals of `ucode.ino`, one bit each of a 24-bit control word.
Bank 0 is bits 0-7, bank 1 bits 8-15, bank 2 bits 16-23. -/

/-- A register out. -/
def U_ARO : Nat := 0x00000001
/-- Sum out. -/
def U_SUO : Nat := 0x00000002
/-- PC high out. -/
def U_PHO : Nat := 0x00000004
/-- PC low out. -/
def U_PLO : Nat := 0x00000008
/-- I register out. -/
def U_IRO : Nat := 0x00000010
/-- Halt. -/
def U_HLT : Nat := 0x00000020
/-- Reserved. -/
def U_RV0 : Nat := 0x00000040
/-- Reserved. -/
def U_RV1 : Nat := 0x00000080
/-- M register in. -/
def U_MRI : Nat := 0x00000100
/-- RAM in. -/
def U_MEI : Nat := 0x00000200
/-- RAM out. -/
def U_MEO : Nat := 0x00000400
/-- Subtract. -/
def U_SUB : Nat := 0x00000800
/-- Output. -/
def U_OUT : Nat := 0x00001000
/-- A register in. -/
def U_ARI : Nat := 0x00002000
/-- B register in. -/
def U_BRI : Nat := 0x00004000
/-- Jump (PC in). -/
def U_JMP : Nat := 0x00008000
/-- Jump if carry. -/
def U_JPC : Nat := 0x00010000
/-- Jump if negative. -/
def U_JPN : Nat := 0x00020000
/-- F register in. -/
def U_FRI : Nat := 0x00040000
/-- PC enable (increment). -/
def U_PCE : Nat := 0x00080000
/-- I register in. -/
def U_IRI : Nat := 0x00100000
/-- Reserved. -/
def U_RV2 : Nat := 0x00200000
/-- Reserved. -/
def U_RV3 : Nat := 0x00400000
/-- Next instruction (sequence-end marker). -/
def U_END : Nat := 0x00800000

/-- Pseudo signal `U_PCO`: PC out. -/
def U_PCO : Nat := U_PHO ||| U_PLO
/-- Pseudo signal `U_ZEO`: zero bus. -/
def U_ZEO : Nat := 0
/-- Fetch step 0: `M <- PC`. -/
def U_FE0 : Nat := U_PCO ||| U_MRI
/-- Fetch step 1: `I <- RAM[M]`, PC increment. -/
def U_FE1 : Nat := U_MEO ||| U_IRI ||| U_PCE
/-- Current-page addressing: `M <- HIGH(PC)|LOW(I)`. -/
def U_CUP : Nat := U_PHO ||| U_IRO ||| U_MRI
/-- Zero-page addressing: `M <- 0|LOW(I)`. -/
def U_ZEP : Nat := U_IRO ||| U_MRI
/-- Accumulator addressing 0: `B <- LOW(I)`. -/
def U_AC0 : Nat := U_IRO ||| U_BRI
/-- Accumulator addressing 1: `M <- A + B`. -/
def U_AC1 : Nat := U_SUO ||| U_MRI

/-- Modelled from the spec: the `isa` initializer of `ucode.ino` uses the
macros `U_MRO` ("M register out") and `U_PCI` ("PC in") in the JMS rows,
but no definition of either macro exists anywhere in the repository and no
bit position is left for them among the 24 defined signals; they are
modelled as contributing no bits. -/
def U_MRO : Nat := 0

/-- Modelled from the spec: see `U_MRO`. -/
def U_PCI : Nat := 0

/-- The 64-row microcode table `isa` of `ucode.ino`.  Row `i` lists the
control words that the C initializer spells out for instruction slot `i`
(instruction `i / 4`, addressing mode `i % 4`); the C array type
`unsigned long [64][8]` zero-fills the cycles beyond the listed entries,
which the lookup below reproduces with a default of `0`. -/
def isa : List (List Nat) := [
  [U_FE0, U_FE1, U_CUP, U_MEO ||| U_BRI, U_SUO ||| U_ARI ||| U_FRI, U_END],
  [U_FE0, U_FE1, U_ZEP, U_MEO ||| U_BRI, U_SUO ||| U_ARI ||| U_FRI, U_END],
  [U_FE0, U_FE1, U_IRO ||| U_BRI, U_SUO ||| U_ARI ||| U_FRI, U_END],
  [U_FE0, U_FE1, U_AC0, U_AC1, U_MEO ||| U_BRI, U_SUO ||| U_ARI ||| U_FRI, U_END],
  [U_FE0, U_FE1, U_CUP, U_MEO ||| U_BRI, U_SUO ||| U_SUB ||| U_ARI ||| U_FRI, U_END],
  [U_FE0, U_FE1, U_ZEP, U_MEO ||| U_BRI, U_SUO ||| U_SUB ||| U_ARI ||| U_FRI, U_END],
  [U_FE0, U_FE1, U_IRO ||| U_BRI, U_SUO ||| U_SUB ||| U_ARI ||| U_FRI, U_END],
  [U_FE0, U_FE1, U_AC0, U_AC1, U_ARO ||| U_BRI, U_MEO ||| U_ARI,
   U_SUO ||| U_SUB ||| U_ARI ||| U_FRI, U_END],
  [U_FE0, U_FE1, U_CUP, U_ARO ||| U_BRI, U_MEO ||| U_ARI,
   U_SUO ||| U_SUB ||| U_ARI ||| U_FRI, U_END],
  [U_FE0, U_FE1, U_ZEP, U_ARO ||| U_BRI, U_MEO ||| U_ARI,
   U_SUO ||| U_SUB ||| U_ARI ||| U_FRI, U_END],
  [U_FE0, U_FE1, U_ARO ||| U_BRI, U_IRO ||| U_ARI,
   U_SUO ||| U_SUB ||| U_ARI ||| U_FRI, U_END],
  [U_FE0, U_FE1, U_AC0, U_AC1, U_ARO ||| U_BRI, U_MEO ||| U_ARI,
   U_SUO ||| U_SUB ||| U_ARI ||| U_FRI, U_END],
  [U_FE0, U_FE1, U_CUP, U_MEO ||| U_ARI ||| U_BRI, U_SUO ||| U_ARI ||| U_FRI, U_END],
  [U_FE0, U_FE1, U_ZEP, U_MEO ||| U_ARI ||| U_BRI, U_SUO ||| U_ARI ||| U_FRI, U_END],
  [U_FE0, U_FE1, U_IRO ||| U_ARI ||| U_BRI, U_SUO ||| U_ARI ||| U_FRI, U_END],
  [U_FE0, U_FE1, U_AC0, U_AC1, U_MEO ||| U_ARI ||| U_BRI, U_SUO ||| U_ARI ||| U_FRI, U_END],
  [U_FE0, U_FE1, U_CUP, U_MEO ||| U_BRI, U_SUB ||| U_FRI, U_END],
  [U_FE0, U_FE1, U_ZEP, U_MEO ||| U_BRI, U_SUB ||| U_FRI, U_END],
  [U_FE0, U_FE1, U_IRO ||| U_BRI, U_SUB ||| U_FRI, U_END],
  [U_FE0, U_FE1, U_AC0, U_AC1, U_MEO ||| U_BRI, U_SUB ||| U_FRI, U_END],
  [U_FE0, U_FE1, U_CUP, U_MEO ||| U_ARI, U_END],
  [U_FE0, U_FE1, U_ZEP, U_MEO ||| U_ARI, U_END],
  [U_FE0, U_FE1, U_IRO ||| U_ARI, U_END],
  [U_FE0, U_FE1, U_AC0, U_AC1, U_MEO, U_ARI, U_END],
  [U_FE0, U_FE1, U_CUP, U_ARO ||| U_MEI, U_END],
  [U_FE0, U_FE1, U_ZEP, U_ARO ||| U_MEI, U_END],
  [U_FE0, U_FE1, U_CUP, U_ARO ||| U_MEI, U_END],
  [U_FE0, U_FE1, U_AC0, U_AC1, U_ARO ||| U_MEI, U_END],
  [U_FE0, U_FE1, U_CUP, U_MEO ||| U_OUT, U_END],
  [U_FE0, U_FE1, U_ZEP, U_MEO ||| U_OUT, U_END],
  [U_FE0, U_FE1, U_IRO ||| U_OUT, U_END],
  [U_FE0, U_FE1, U_AC0, U_AC1, U_MEO ||| U_OUT, U_END],
  [U_FE0, U_FE1, U_CUP, U_MEO ||| U_JMP, U_END],
  [U_FE0, U_FE1, U_ZEP, U_MEO ||| U_JMP, U_END],
  [U_FE0, U_FE1, U_IRO ||| U_PHO ||| U_JMP, U_END],
  [U_FE0, U_FE1, U_AC0, U_AC1, U_MEO ||| U_JMP, U_END],
  [U_FE0, U_FE1, U_CUP, U_MEO ||| U_JPC, U_END],
  [U_FE0, U_FE1, U_ZEP, U_MEO ||| U_JPC, U_END],
  [U_FE0, U_FE1, U_IRO ||| U_PHO ||| U_JPC, U_END],
  [U_FE0, U_FE1, U_AC0, U_AC1, U_MEO ||| U_JPC, U_END],
  [U_FE0, U_FE1, U_CUP, U_MEO ||| U_JPN, U_END],
  [U_FE0, U_FE1, U_ZEP, U_MEO ||| U_JPN, U_END],
  [U_FE0, U_FE1, U_IRO ||| U_PHO ||| U_JPN, U_END],
  [U_FE0, U_FE1, U_AC0, U_AC1, U_MEO ||| U_JPN, U_END],
  [U_FE0, U_FE1, U_CUP, U_MEO ||| U_MRI, U_PCO ||| U_MEI, U_MRO ||| U_PCI, U_PCE, U_END],
  [U_FE0, U_FE1, U_ZEP, U_MEO ||| U_MRI, U_PCO ||| U_MEI, U_MRO ||| U_PCI, U_PCE, U_END],
  [U_FE0, U_FE1, U_IRO ||| U_PHO ||| U_MRI, U_PCO ||| U_MEI, U_MRO ||| U_PCI, U_PCE, U_END],
  [U_FE0, U_FE1, U_AC0, U_AC1, U_MEO ||| U_MRI, U_PCO ||| U_MEI, U_MRO ||| U_PCI, U_PCE],
  [U_FE0, U_FE1, U_CUP, U_END],
  [U_FE0, U_FE1, U_ZEP, U_END],
  [U_FE0, U_FE1, U_END],
  [U_FE0, U_FE1, U_AC0, U_AC1, U_END],
  [U_FE0, U_FE1, U_CUP, U_MEO ||| U_BRI, U_ARO ||| U_MEI, U_ZEO ||| U_ARI,
   U_SUO ||| U_ARI, U_END],
  [U_FE0, U_FE1, U_ZEP, U_MEO ||| U_BRI, U_ARO ||| U_MEI, U_ZEO ||| U_ARI,
   U_SUO ||| U_ARI, U_END],
  [U_FE0, U_FE1, U_IRO ||| U_ARI, U_END],
  [U_FE0, U_FE1, U_AC0, U_AC1, U_MEO ||| U_BRI, U_ARO ||| U_MEI, U_ZEO ||| U_ARI,
   U_SUO ||| U_ARI],
  [U_FE0, U_FE1, U_CUP, U_END],
  [U_FE0, U_FE1, U_ZEP, U_END],
  [U_FE0, U_FE1, U_END],
  [U_FE0, U_FE1, U_AC0, U_AC1, U_END],
  [U_FE0, U_FE1, U_HLT],
  [U_FE0, U_FE1, U_HLT],
  [U_FE0, U_FE1, U_HLT],
  [U_FE0, U_FE1, U_HLT]]

/-- The control word `isa[inst][cycle]`, with the C zero-fill of the
fixed-size array reproduced by a default of `0`. -/
def controlWord (inst cycle : Nat) : Nat := (isa.getD inst []).getD cycle 0

/-- The number of control words the initializer lists for slot `inst`
(the "defined sequence length"). -/
def seqLength (inst : Nat) : Nat := (isa.getD inst []).length

/-- `getOutputByte` of `ucode.ino`: zero above 2048, otherwise decompose
the address into bank / cycle / instruction, look up the control word and
take the bank's byte.  The `(unsigned char)` cast is `% 256`. -/
def getOutputByte (address : Nat) : Nat :=
  if 2048 < address then 0
  else
    let bank := address >>> 9
    let cycle := (address >>> 6) &&& 7
    let inst := address &&& 0o77
    (controlWord inst cycle >>> (bank <<< 3)) % 256

end Ucode

/-- Models the Arduino library routine `shiftOut(dataPin, clockPin,
MSBFIRST, val)` used by both sketches' `writeEepromAddress`: the eight
bits of `val` are clocked onto the data line most-significant bit first.
Modelled from the spec (`shiftOut` is Arduino library code, not part of
this repository): "shift 16 address bits out most-significant-bit-first". -/
def shiftOutMSBFirst (val : Nat) : List Bool :=
  [val.testBit 7, val.testBit 6, val.testBit 5, val.testBit 4,
   val.testBit 3, val.testBit 2, val.testBit 1, val.testBit 0]

namespace Sevenseg

/-- Models the claim's (and spec's) own description of the signed-decimal
digit-slot-0 byte, for comparison with the code: take the low 15 bits of
the address, treat bit 14 as the sign bit, negate (two's complement) if
negative remembering a sign flag, and show `digits[value % 10]` XOR the
sign-indicator pattern `0x08`. -/
def claimedSlot0 (address : Nat) : Nat :=
  let v := address &&& 0x7FFF
  let mag := if v.testBit 14 then 2 ^ 15 - v else v
  let s := if v.testBit 14 then 0x08 else 0
  digits.getD (mag % 10) 0 ^^^ s

/-- The data-pin levels driven by `writeEepromByte`'s loop in
`sevenseg.ino`: iteration `k` writes `data & 1` to pin
`EEPROM_DATA_0 + k` and then shifts `data` right once, so entry `k` of
the list is the level left on pin `EEPROM_DATA_0 + k`.  The first
argument counts the remaining loop iterations (8 at the top call). -/
def writeEepromByteLevels : Nat → Nat → List Bool
  | 0, _ => []
  | n + 1, data => (data &&& 1 == 1) :: writeEepromByteLevels n (data >>> 1)

/-- The pin state after `writeEepromByte(data, EEPROM_DATA_0, ...)`:
level of data pin `EEPROM_DATA_0 + k` as a function of `k`. -/
def pinLevels (data : Nat) : Nat → Bool :=
  fun k => (writeEepromByteLevels 8 data).getD k false

/-- The byte-assembly loop of `dumpEeprom` in `sevenseg.ino`,
`for (k = 0; k < 8; ++k) data |= (digitalRead(EEPROM_DATA_0 + k) == HIGH
? 1 : 0) << k;`, with the loop counter values written out and the level
of pin `EEPROM_DATA_0 + k` abstracted as `levels k`. -/
def readByte (levels : Nat → Bool) : Nat :=
  [0, 1, 2, 3, 4, 5, 6, 7].foldl
    (fun data k => data ||| ((if levels k then 1 else 0) <<< k)) 0

/-- `writeEepromAddress` of `sevenseg.ino`: the high address byte then the
low address byte, each shifted out MSB-first; the `(uint8_t)` casts are
`% 256`. -/
def writeEepromAddressBits (address : Nat) : List Bool :=
  shiftOutMSBFirst ((address >>> 8) % 256) ++ shiftOutMSBFirst (address % 256)

/-- The hex-digit table `"0123456789abcdef"` indexed by `dumpEeprom`. -/
def hexChars : List Char := "0123456789abcdef".toList

/-- The characters `dumpEeprom(b, e)` of `sevenseg.ino` sends over serial:
for each address `i` in `[b, e)`, the two lowercase hex digits of the byte
read back at `i` (abstracted as `mem i`), then a space, or a newline when
`(i + 1) & 15` is zero. -/
def dumpChars (mem : Nat → Nat) (b e : Nat) : List Char :=
  (List.range' b (e - b)).flatMap fun i =>
    [hexChars.getD (mem i >>> 4) ' ', hexChars.getD (mem i &&& 15) ' ',
     if (i + 1) &&& 15 ≠ 0 then ' ' else '\n']

/-- The full serial output of `setup()` of `sevenseg.ino`: the literal
"Programming", one '.' after each of the 8 pages of 4096 programmed
addresses (the inner loop writes only to the EEPROM, not to serial),
the literal "\nFinished\n", then the dump of addresses 0..4095. -/
def setupSerial (mem : Nat → Nat) : List Char :=
  "Programming".toList
  ++ ((List.range 8).flatMap fun _ => ['.'])
  ++ "\nFinished\n".toList
  ++ dumpChars mem 0 4096

end Sevenseg

namespace Ucode

/-- The byte-assembly loop of `dumpEeprom` in `ucode.ino`,
`for (k = EEPROM_DATA_0 + 8; k-- > EEPROM_DATA_0; ) data = (data << 1) |
digitalRead(k);`: pins are read from `EEPROM_DATA_0 + 7` down to
`EEPROM_DATA_0`, shifting the accumulator left each time.  `digitalRead`
returns 1 for HIGH and 0 for LOW; the level of pin `EEPROM_DATA_0 + k`
is abstracted as `levels k`, with the descending counter values written
out. -/
def readByte (levels : Nat → Bool) : Nat :=
  [7, 6, 5, 4, 3, 2, 1, 0].foldl
    (fun data k => (data <<< 1) ||| (if levels k then 1 else 0)) 0

/-- `writeEepromAddress` of `ucode.ino` (identical to the sevenseg one):
high address byte then low address byte, each shifted out MSB-first. -/
def writeEepromAddressBits (address : Nat) : List Bool :=
  shiftOutMSBFirst ((address >>> 8) % 256) ++ shiftOutMSBFirst (address % 256)

/-- The sequence of `(address, byte)` EEPROM writes performed by `setup()`
of `ucode.ino`: the nested loops program address `(i << 9) | j` with
`getOutputByte` for banks `i = 0..3` and offsets `j = 0..511`, then the
trailing loop writes the zero byte to every address in `[2048, 8192)`. -/
def programWrites : List (Nat × Nat) :=
  ((List.range 4).flatMap fun i =>
    (List.range 512).map fun j =>
      ((i <<< 9) ||| j, getOutputByte ((i <<< 9) ||| j)))
  ++ ((List.range' 2048 6144).map fun i => (i, 0))

end Ucode

/-! ## Helper lemmas -/

/-- Closed form of the sevenseg signed-decimal magnitude: the low 12 bits
of the address, two's-complement negated when bit 11 is set. -/
theorem Sevenseg.value_eq (a : Nat) :
    Sevenseg.value a = if 2048 ≤ a % 4096 then 4096 - a % 4096 else a % 4096 := by
  simp only [Sevenseg.value, Sevenseg.rawValue, Nat.shiftLeft_eq,
    Nat.shiftRight_eq_div_pow]
  norm_num
  split_ifs <;> omega

/-- Closed form of the sevenseg sign flag: `0x08` exactly when bit 11 of
the address is set. -/
theorem Sevenseg.sign_eq (a : Nat) :
    Sevenseg.sign a = if 2048 ≤ a % 4096 then 8 else 0 := by
  simp only [Sevenseg.sign, Sevenseg.rawValue, Nat.shiftLeft_eq,
    Nat.shiftRight_eq_div_pow]
  norm_num
  split_ifs <;> omega

/-- The control-store encoder returns zero at and above address 2048:
above 2048 through the guard, and at 2048 itself because bank 4's shift
amount (32) moves every bit of the 24-bit control word out. -/
theorem Ucode.getOutputByte_high (a : Nat) (h : 2048 ≤ a) :
    Ucode.getOutputByte a = 0 := by
  rcases Nat.lt_or_ge 2048 a with hgt | hle
  · unfold Ucode.getOutputByte
    rw [if_pos hgt]
  · have ha : a = 2048 := Nat.le_antisymm hle h
    subst ha
    decide

/-! ## Claims -/

/-- Claim C1: for every address `a` in `[0, 2048)`, the control-store
encoder returns byte `(controlWord(opcode, cycle) >> (bank*8)) & 0xFF`
where `bank = a >> 9`, `cycle = (a >> 6) & 7` and `opcode = a & 63`,
`controlWord` being the fixed `isa` table entry; and for every opcode and
every cycle index at or beyond that opcode's defined sequence length (up
to cycle 7), this byte is the all-zero byte for every bank. -/
theorem claim_C1_control_store_encoding :
    (∀ a, a < 2048 →
      Ucode.getOutputByte a =
        (Ucode.controlWord (a &&& 63) ((a >>> 6) &&& 7) >>> ((a >>> 9) * 8)) % 256) ∧
    (∀ inst, inst < 64 → ∀ cycle, Ucode.seqLength inst ≤ cycle → cycle ≤ 7 →
      ∀ bank, (Ucode.controlWord inst cycle >>> (bank * 8)) % 256 = 0) := by
  constructor
  · intro a ha
    simp only [Ucode.getOutputByte]
    rw [if_neg (by omega), Nat.shiftLeft_eq]
  · intro inst _ cycle hlen _ bank
    unfold Ucode.seqLength at hlen
    unfold Ucode.controlWord
    rw [List.getD_eq_getElem?_getD, List.getElem?_eq_none hlen]
    simp

/-- Witness for C1 at address 0 and at `(opcode, cycle, bank) = (0, 6, 0)`
(the ADDc sequence has 6 defined entries). -/
theorem claim_C1_witness :
    Ucode.getOutputByte 0 =
      (Ucode.controlWord (0 &&& 63) ((0 >>> 6) &&& 7) >>> ((0 >>> 9) * 8)) % 256 ∧
    (Ucode.controlWord 0 6 >>> (0 * 8)) % 256 = 0 :=
  ⟨claim_C1_control_store_encoding.1 0 (by decide),
   claim_C1_control_store_encoding.2 0 (by decide) 6 (by decide) (by decide) 0⟩

/-- Claim C2: in octal mode (`a < 0o40000`) the display encoder returns
`digits[(a >> (3*d)) & 7]` with `d = (a >> 12) & 3`, and in particular
address `0o0005` yields `0x19`, the table pattern for digit 5. -/
theorem claim_C2_octal_mode :
    (∀ a, a < 0o40000 →
      Sevenseg.getOutputByte a =
        Sevenseg.digits.getD ((a >>> (3 * ((a >>> 12) &&& 3))) &&& 7) 0) ∧
    Sevenseg.getOutputByte 0o0005 = 0x19 := by
  constructor
  · intro a ha
    have hd : (a >>> 12) &&& 3 ≤ 3 := Nat.and_le_right
    simp only [Sevenseg.getOutputByte]
    rw [if_neg (by omega), if_pos ha]
    have : (a >>> 12) &&& 3 = 0 ∨ (a >>> 12) &&& 3 = 1 ∨
        (a >>> 12) &&& 3 = 2 ∨ (a >>> 12) &&& 3 = 3 := by omega
    rcases this with h | h | h | h <;> rw [h] <;> norm_num
  · decide

/-- Witness for C2 at address 5. -/
theorem claim_C2_witness :
    Sevenseg.getOutputByte 5 =
      Sevenseg.digits.getD ((5 >>> (3 * ((5 >>> 12) &&& 3))) &&& 7) 0 :=
  claim_C2_octal_mode.1 5 (by decide)

/-- Claim C5 counterexample: it is not the case that every one of the 64
microcode rows has a last defined entry containing `U_END`; row `0o74`
(HLT, current-page) ends with `U_HLT` instead. -/
theorem claim_C5_counterexample :
    ¬ ∀ i, i < 64 → (Ucode.isa.getD i []).getLastD 0 &&& Ucode.U_END ≠ 0 := by
  intro h
  exact h 0o74 (by decide) (by decide)

/-- Claim C5 amended: every one of the 64 microcode rows begins with the
two fetch steps `U_FE0`, `U_FE1` and has at most 8 defined entries, and
its last defined entry contains `U_END` except for the accumulator-mode
JMS and SWP rows (`0o57`, `0o67`), which fill all 8 slots and end without
a marker, and the four HLT rows (`0o74`..`0o77`), which end with `U_HLT`. -/
theorem claim_C5_amended :
    ∀ i, i < 64 →
      (Ucode.isa.getD i []).take 2 = [Ucode.U_FE0, Ucode.U_FE1] ∧
      (Ucode.isa.getD i []).length ≤ 8 ∧
      (i ∉ ([0o57, 0o67, 0o74, 0o75, 0o76, 0o77] : List Nat) →
        (Ucode.isa.getD i []).getLastD 0 &&& Ucode.U_END ≠ 0) ∧
      (0o74 ≤ i → (Ucode.isa.getD i []).getLastD 0 = Ucode.U_HLT) ∧
      (i = 0o57 ∨ i = 0o67 →
        (Ucode.isa.getD i []).length = 8 ∧
        (Ucode.isa.getD i []).getLastD 0 &&& Ucode.U_END = 0 ∧
        (Ucode.isa.getD i []).getLastD 0 &&& Ucode.U_HLT = 0) := by
  decide

/-- Witness for C5 at rows `0o74` (the HLT sequence's last entry is
`U_HLT`) and `0o57` (JMSa fills all 8 slots and its last entry carries no
marker). -/
theorem claim_C5_witness :
    (Ucode.isa.getD 0o74 []).getLastD 0 = Ucode.U_HLT ∧
    ((Ucode.isa.getD 0o57 []).length = 8 ∧
      (Ucode.isa.getD 0o57 []).getLastD 0 &&& Ucode.U_END = 0 ∧
      (Ucode.isa.getD 0o57 []).getLastD 0 &&& Ucode.U_HLT = 0) :=
  ⟨(claim_C5_amended 0o74 (by decide)).2.2.2.1 (by decide),
   (claim_C5_amended 0o57 (by decide)).2.2.2.2 (by decide)⟩

/-- Claim C6: both encoders are total functions with out-of-range
defaults: the display encoder returns the blank pattern for every address
above `0x7FFF`; the control-store encoder returns the zero byte for every
address at or beyond 2048 (including the boundary 2048 itself, where the
unguarded path computes bank 4 and shift amount 32); and every table
index computed on the unguarded paths is in bounds (opcode below 64,
cycle below 8, digit-table indices below 16). -/
theorem claim_C6_totality_defaults :
    (∀ a, 0x7FFF < a → Sevenseg.getOutputByte a = Sevenseg.off) ∧
    (∀ a, 2048 ≤ a → Ucode.getOutputByte a = 0) ∧
    (∀ a, a &&& 0o77 < 64 ∧ (a >>> 6) &&& 7 < 8 ∧ (a ≤ 2048 → (a >>> 9) * 8 ≤ 32)) ∧
    (∀ x : Nat, x &&& 7 < 16 ∧ x % 10 < 16) ∧
    Ucode.getOutputByte 2048 = 0 := by
  refine ⟨?_, fun a h => Ucode.getOutputByte_high a h, ?_, ?_, by decide⟩
  · intro a ha
    simp only [Sevenseg.getOutputByte]
    rw [if_pos (by omega)]
  · intro a
    refine ⟨Nat.lt_succ_of_le Nat.and_le_right, Nat.lt_succ_of_le Nat.and_le_right, ?_⟩
    intro h
    have h9 : a >>> 9 = a / 512 := by rw [Nat.shiftRight_eq_div_pow]
    omega
  · intro x
    have h7 : x &&& 7 ≤ 7 := Nat.and_le_right
    exact ⟨by omega, by omega⟩

/-- Witness for C6 at addresses `0x8000` (display side) and 4096
(control-store side). -/
theorem claim_C6_witness :
    Sevenseg.getOutputByte 0x8000 = Sevenseg.off ∧ Ucode.getOutputByte 4096 = 0 :=
  ⟨claim_C6_totality_defaults.1 0x8000 (by decide),
   claim_C6_totality_defaults.2.1 4096 (by decide)⟩

/-- Claim C3 counterexample: the claim's own value computation (low 15
bits, sign bit 14 — modelled by `claimedSlot0`) disagrees with the code at
the decimal-mode, digit-slot-0 address `0x4000`: the code shows digit 0
with no sign mark (`0x88`), the claim predicts `digits[4] XOR 8 = 0x23`. -/
theorem claim_C3_counterexample :
    0o40000 ≤ 0x4000 ∧ (0x4000 >>> 12) &&& 3 = 0 ∧
    Sevenseg.getOutputByte 0x4000 ≠ Sevenseg.claimedSlot0 0x4000 := by
  decide

/-- Claim C3 amended: on the AVR target `int` is 16 bits wide, so
`((int)address << 4) >> 4` keeps only the low 12 bits of the address and
sign-extends bit 11 (not the low 15 bits with sign bit 14): for every
decimal-mode address, the magnitude is `a % 4096`, two's-complement
negated to `4096 - a % 4096` with the sign flag `0x08` remembered exactly
when bit 11 is set (`a % 4096 ≥ 2048`); digit slot 0 then shows
`digits[value % 10] XOR sign`, so the 12-bit value `-5` (low bits
`0xFFB`) at slot 0 gives `digits[5] XOR 0x08` while its slot 1 renders
exactly as for the magnitude 5. -/
theorem claim_C3_signed_decimal_value (a : Nat) (h1 : 0o40000 ≤ a) (h2 : a ≤ 0x7FFF) :
    (Sevenseg.value a =
      if 2048 ≤ a % 4096 then 4096 - a % 4096 else a % 4096) ∧
    (Sevenseg.sign a = if 2048 ≤ a % 4096 then 8 else 0) ∧
    ((a >>> 12) &&& 3 = 0 →
      Sevenseg.getOutputByte a =
        Sevenseg.digits.getD (Sevenseg.value a % 10) 0 ^^^ Sevenseg.sign a) ∧
    Sevenseg.getOutputByte 0x4FFB = Sevenseg.digits.getD 5 0 ^^^ 0x08 ∧
    Sevenseg.getOutputByte 0x5FFB = Sevenseg.getOutputByte 0x5005 := by
  refine ⟨Sevenseg.value_eq a, Sevenseg.sign_eq a, ?_, by decide, by decide⟩
  intro hd
  simp only [Sevenseg.getOutputByte]
  rw [if_neg (by omega), if_neg (by omega), if_pos hd]

/-- Witness for C3 (amended) at the address `0x4FFB`, the 12-bit value
`-5` at digit slot 0. -/
theorem claim_C3_witness :
    Sevenseg.getOutputByte 0x4FFB =
      Sevenseg.digits.getD (Sevenseg.value 0x4FFB % 10) 0 ^^^ Sevenseg.sign 0x4FFB :=
  (claim_C3_signed_decimal_value 0x4FFB (by decide) (by decide)).2.2.1 (by decide)

/-- Claim C4: leading-zero suppression and sign placement in decimal
mode: with magnitude `v = value a`, digit slot `k ∈ {1,2,3}` shows the
blank pattern whenever `v < 10^k` and `digits[(v / 10^k) % 10]` otherwise;
the sign mark is applied only at digit slot 0; and slot 0 always shows
`digits[v % 10]` (value 0 displays digit 0, never blank). -/
theorem claim_C4_leading_zero_suppression (a : Nat)
    (h1 : 0o40000 ≤ a) (h2 : a ≤ 0x7FFF) :
    ((a >>> 12) &&& 3 = 1 →
      Sevenseg.getOutputByte a =
        if Sevenseg.value a < 10 then Sevenseg.off
        else Sevenseg.digits.getD (Sevenseg.value a / 10 % 10) 0) ∧
    ((a >>> 12) &&& 3 = 2 →
      Sevenseg.getOutputByte a =
        if Sevenseg.value a < 100 then Sevenseg.off
        else Sevenseg.digits.getD (Sevenseg.value a / 100 % 10) 0) ∧
    ((a >>> 12) &&& 3 = 3 →
      Sevenseg.getOutputByte a =
        if Sevenseg.value a < 1000 then Sevenseg.off
        else Sevenseg.digits.getD (Sevenseg.value a / 1000 % 10) 0) ∧
    ((a >>> 12) &&& 3 = 0 →
      Sevenseg.getOutputByte a =
        Sevenseg.digits.getD (Sevenseg.value a % 10) 0 ^^^ Sevenseg.sign a) ∧
    (Sevenseg.getOutputByte 0o40000 = Sevenseg.digits.getD 0 0 ∧
      Sevenseg.digits.getD 0 0 ≠ Sevenseg.off) := by
  refine ⟨?_, ?_, ?_, ?_, by decide, by decide⟩ <;> intro hd <;>
    simp only [Sevenseg.getOutputByte] <;>
    rw [if_neg (by omega), if_neg (by omega)] <;>
    rw [hd]
  · norm_num
    rcases Nat.lt_or_ge (Sevenseg.value a) 10 with h | h
    · rw [if_neg (by omega), if_pos h]
    · rw [if_pos h, if_neg (by omega)]
  · norm_num
    rcases Nat.lt_or_ge (Sevenseg.value a) 100 with h | h
    · rw [if_neg (by omega), if_pos h]
    · rw [if_pos h, if_neg (by omega)]
  · norm_num
    rcases Nat.lt_or_ge (Sevenseg.value a) 1000 with h | h
    · rw [if_neg (by omega), if_pos h]
    · rw [if_pos h, if_neg (by omega)]
  · rfl

/-- Witness for C4 at `0x5007` (value 7, digit slot 1: blank) — the
spec's own example of suppression. -/
theorem claim_C4_witness :
    Sevenseg.getOutputByte 0x5007 =
      if Sevenseg.value 0x5007 < 10 then Sevenseg.off
      else Sevenseg.digits.getD (Sevenseg.value 0x5007 / 10 % 10) 0 :=
  (claim_C4_leading_zero_suppression 0x5007 (by decide) (by decide)).1 (by decide)

/-- The sevenseg byte-assembly loop reads only pins 0..7. -/
theorem sevensegReadByte_congr (levels levels' : Nat → Bool)
    (h : ∀ k, k < 8 → levels k = levels' k) :
    Sevenseg.readByte levels = Sevenseg.readByte levels' := by
  simp only [Sevenseg.readByte, List.foldl_cons, List.foldl_nil,
    h 0 (by omega), h 1 (by omega), h 2 (by omega), h 3 (by omega),
    h 4 (by omega), h 5 (by omega), h 6 (by omega), h 7 (by omega)]

/-- The ucode byte-assembly loop reads only pins 0..7. -/
theorem ucodeReadByte_congr (levels levels' : Nat → Bool)
    (h : ∀ k, k < 8 → levels k = levels' k) :
    Ucode.readByte levels = Ucode.readByte levels' := by
  simp only [Ucode.readByte, List.foldl_cons, List.foldl_nil,
    h 0 (by omega), h 1 (by omega), h 2 (by omega), h 3 (by omega),
    h 4 (by omega), h 5 (by omega), h 6 (by omega), h 7 (by omega)]

/-- Bit `k` of the weighted bit sum of eight pin levels is the `k`-th
level. -/
theorem packBits_testBit (levels : Nat → Bool) :
    ∀ k, k < 8 →
      Nat.testBit ((levels 0).toNat + 2 * (levels 1).toNat + 4 * (levels 2).toNat +
        8 * (levels 3).toNat + 16 * (levels 4).toNat + 32 * (levels 5).toNat +
        64 * (levels 6).toNat + 128 * (levels 7).toNat) k = levels k := by
  have t0 := Bool.toNat_lt (levels 0)
  have t1 := Bool.toNat_lt (levels 1)
  have t2 := Bool.toNat_lt (levels 2)
  have t3 := Bool.toNat_lt (levels 3)
  have t4 := Bool.toNat_lt (levels 4)
  have t5 := Bool.toNat_lt (levels 5)
  have t6 := Bool.toNat_lt (levels 6)
  have t7 := Bool.toNat_lt (levels 7)
  intro k hk
  interval_cases k
  · rcases h : levels 0 <;>
      simp only [h, Bool.toNat_true, Bool.toNat_false, Nat.testBit_to_div_mod,
        decide_eq_true_eq, decide_eq_false_iff_not] <;>
      norm_num <;> omega
  · rcases h : levels 1 <;>
      simp only [h, Bool.toNat_true, Bool.toNat_false, Nat.testBit_to_div_mod,
        decide_eq_true_eq, decide_eq_false_iff_not] <;>
      norm_num <;> omega
  · rcases h : levels 2 <;>
      simp only [h, Bool.toNat_true, Bool.toNat_false, Nat.testBit_to_div_mod,
        decide_eq_true_eq, decide_eq_false_iff_not] <;>
      norm_num <;> omega
  · rcases h : levels 3 <;>
      simp only [h, Bool.toNat_true, Bool.toNat_false, Nat.testBit_to_div_mod,
        decide_eq_true_eq, decide_eq_false_iff_not] <;>
      norm_num <;> omega
  · rcases h : levels 4 <;>
      simp only [h, Bool.toNat_true, Bool.toNat_false, Nat.testBit_to_div_mod,
        decide_eq_true_eq, decide_eq_false_iff_not] <;>
      norm_num <;> omega
  · rcases h : levels 5 <;>
      simp only [h, Bool.toNat_true, Bool.toNat_false, Nat.testBit_to_div_mod,
        decide_eq_true_eq, decide_eq_false_iff_not] <;>
      norm_num <;> omega
  · rcases h : levels 6 <;>
      simp only [h, Bool.toNat_true, Bool.toNat_false, Nat.testBit_to_div_mod,
        decide_eq_true_eq, decide_eq_false_iff_not] <;>
      norm_num <;> omega
  · rcases h : levels 7 <;>
      simp only [h, Bool.toNat_true, Bool.toNat_false, Nat.testBit_to_div_mod,
        decide_eq_true_eq, decide_eq_false_iff_not] <;>
      norm_num <;> omega

set_option maxRecDepth 10000 in
set_option maxHeartbeats 1600000 in
/-- The sevenseg byte-assembly loop applied to the bits of a byte
reconstructs that byte. -/
theorem sevensegReadByte_ofTestBit :
    ∀ n, n < 256 → Sevenseg.readByte (fun k => Nat.testBit n k) = n := by
  decide

set_option maxRecDepth 10000 in
set_option maxHeartbeats 1600000 in
/-- The ucode byte-assembly loop applied to the bits of a byte
reconstructs that byte. -/
theorem ucodeReadByte_ofTestBit :
    ∀ n, n < 256 → Ucode.readByte (fun k => Nat.testBit n k) = n := by
  decide

/-- Sum-of-bits closed form of the ascending byte-assembly loop of
`sevenseg.ino`'s dump. -/
theorem sevensegReadByte_eq (levels : Nat → Bool) :
    Sevenseg.readByte levels =
      (levels 0).toNat + 2 * (levels 1).toNat + 4 * (levels 2).toNat +
      8 * (levels 3).toNat + 16 * (levels 4).toNat + 32 * (levels 5).toNat +
      64 * (levels 6).toNat + 128 * (levels 7).toNat := by
  have hlt : (levels 0).toNat + 2 * (levels 1).toNat + 4 * (levels 2).toNat +
      8 * (levels 3).toNat + 16 * (levels 4).toNat + 32 * (levels 5).toNat +
      64 * (levels 6).toNat + 128 * (levels 7).toNat < 256 := by
    have t0 := Bool.toNat_lt (levels 0)
    have t1 := Bool.toNat_lt (levels 1)
    have t2 := Bool.toNat_lt (levels 2)
    have t3 := Bool.toNat_lt (levels 3)
    have t4 := Bool.toNat_lt (levels 4)
    have t5 := Bool.toNat_lt (levels 5)
    have t6 := Bool.toNat_lt (levels 6)
    have t7 := Bool.toNat_lt (levels 7)
    omega
  rw [sevensegReadByte_congr levels _
    (fun k hk => (packBits_testBit levels k hk).symm)]
  exact sevensegReadByte_ofTestBit _ hlt

/-- Sum-of-bits closed form of the descending byte-assembly loop of
`ucode.ino`'s dump: the same value. -/
theorem ucodeReadByte_eq (levels : Nat → Bool) :
    Ucode.readByte levels =
      (levels 0).toNat + 2 * (levels 1).toNat + 4 * (levels 2).toNat +
      8 * (levels 3).toNat + 16 * (levels 4).toNat + 32 * (levels 5).toNat +
      64 * (levels 6).toNat + 128 * (levels 7).toNat := by
  have hlt : (levels 0).toNat + 2 * (levels 1).toNat + 4 * (levels 2).toNat +
      8 * (levels 3).toNat + 16 * (levels 4).toNat + 32 * (levels 5).toNat +
      64 * (levels 6).toNat + 128 * (levels 7).toNat < 256 := by
    have t0 := Bool.toNat_lt (levels 0)
    have t1 := Bool.toNat_lt (levels 1)
    have t2 := Bool.toNat_lt (levels 2)
    have t3 := Bool.toNat_lt (levels 3)
    have t4 := Bool.toNat_lt (levels 4)
    have t5 := Bool.toNat_lt (levels 5)
    have t6 := Bool.toNat_lt (levels 6)
    have t7 := Bool.toNat_lt (levels 7)
    omega
  rw [ucodeReadByte_congr levels _
    (fun k hk => (packBits_testBit levels k hk).symm)]
  exact ucodeReadByte_ofTestBit _ hlt

set_option maxRecDepth 10000 in
set_option maxHeartbeats 1600000 in
/-- Claim C7: `writeEepromByte` drives bit `k` of the byte onto data pin
`EEPROM_DATA_0 + k` (least-significant bit on the lowest-numbered pin),
and the `ucode.ino` dump loop assembles the byte back from those same
pins in the exact inverse order, so reading the pins right after
`writeEepromByte(b)` reconstructs exactly `b`. -/
theorem claim_C7_data_bus_round_trip :
    ∀ b, b < 256 →
      (∀ k, k < 8 → Sevenseg.pinLevels b k = b.testBit k) ∧
      Ucode.readByte (Sevenseg.pinLevels b) = b := by
  decide

/-- Witness for C7 at the byte `0xA5`. -/
theorem claim_C7_witness :
    Sevenseg.pinLevels 0xA5 0 = Nat.testBit 0xA5 0 ∧
    Ucode.readByte (Sevenseg.pinLevels 0xA5) = 0xA5 :=
  ⟨(claim_C7_data_bus_round_trip 0xA5 (by decide)).1 0 (by decide),
   (claim_C7_data_bus_round_trip 0xA5 (by decide)).2⟩

/-- Claim C10: for every assignment of levels to the 8 data pins, the
ascending assembly loop of `sevenseg.ino`'s dump and the descending
assembly loop of `ucode.ino`'s dump produce the same byte, whose bit `k`
is the level of pin `EEPROM_DATA_0 + k`. -/
theorem claim_C10_dump_assembly_agreement :
    ∀ levels : Nat → Bool,
      Sevenseg.readByte levels = Ucode.readByte levels ∧
      ∀ k, k < 8 → (Sevenseg.readByte levels).testBit k = levels k := by
  intro levels
  refine ⟨by rw [sevensegReadByte_eq, ucodeReadByte_eq], ?_⟩
  intro k hk
  rw [sevensegReadByte_eq]
  exact packBits_testBit levels k hk

/-- Witness for C10 at the level assignment "only pin 1 high". -/
theorem claim_C10_witness :
    Sevenseg.readByte (fun k => k == 1) = Ucode.readByte (fun k => k == 1) ∧
    (Sevenseg.readByte (fun k => k == 1)).testBit 1 = ((1 : Nat) == 1) :=
  ⟨(claim_C10_dump_assembly_agreement (fun k => k == 1)).1,
   (claim_C10_dump_assembly_agreement (fun k => k == 1)).2 1 (by decide)⟩

set_option maxRecDepth 10000 in
/-- Claim C9: the serial output of `sevenseg.ino`'s `setup()` is exactly
"Programming", one '.' per completed page (8 pages), "\nFinished\n", then
the dump in which each byte appears as two lowercase hex digits followed
by a space, except that a newline is emitted instead of the space after
every address where `(address + 1) mod 16 = 0`. -/
theorem claim_C9_output_stream_format :
    ∀ mem : Nat → Nat,
      Sevenseg.setupSerial mem =
        "Programming........\nFinished\n".toList
        ++ (List.range 4096).flatMap fun i =>
          [Sevenseg.hexChars.getD (mem i >>> 4) ' ',
           Sevenseg.hexChars.getD (mem i &&& 15) ' ',
           if (i + 1) % 16 = 0 then '\n' else ' '] := by
  intro mem
  have hsep : ∀ i : Nat,
      (if (i + 1) &&& 15 ≠ 0 then ' ' else '\n') =
        (if (i + 1) % 16 = 0 then '\n' else ' ') := by
    intro i
    have h := Nat.and_pow_two_sub_one_eq_mod (i + 1) 4
    norm_num at h
    rw [h]
    by_cases hc : (i + 1) % 16 = 0
    · rw [if_neg (fun hn => hn hc), if_pos hc]
    · rw [if_pos hc, if_neg hc]
  have hpre : "Programming".toList ++ ((List.range 8).flatMap fun _ => ['.'])
      ++ "\nFinished\n".toList = "Programming........\nFinished\n".toList := by rfl
  unfold Sevenseg.setupSerial Sevenseg.dumpChars
  rw [show (4096 - 0 : Nat) = 4096 from rfl, ← List.range_eq_range']
  simp only [hsep]
  rw [hpre]

/-- Witness for C9 with the all-zero memory. -/
theorem claim_C9_witness :
    Sevenseg.setupSerial (fun _ => 0) =
      "Programming........\nFinished\n".toList
      ++ (List.range 4096).flatMap fun i =>
        [Sevenseg.hexChars.getD ((0 : Nat) >>> 4) ' ',
         Sevenseg.hexChars.getD ((0 : Nat) &&& 15) ' ',
         if (i + 1) % 16 = 0 then '\n' else ' '] :=
  claim_C9_output_stream_format (fun _ => 0)

set_option maxRecDepth 10000 in
set_option maxHeartbeats 1600000 in
/-- The bank/offset address composition of the programming sweep:
`(i << 9) | j` is `512*i + j` for in-range bank and offset. -/
theorem Ucode.shiftOr_eq : ∀ i, i < 4 → ∀ j, j < 512 → (i <<< 9) ||| j = 512 * i + j := by
  decide

/-- Splitting `List.range (n * B)` into `n` consecutive blocks of `B`. -/
theorem range_mul_flatMap {α : Type} (B : Nat) (f : Nat → α) :
    ∀ n, (List.range (n * B)).map f
      = (List.range n).flatMap fun i => (List.range B).map fun j => f (B * i + j)
  | 0 => by simp
  | n + 1 => by
    have h2 : (List.map f ((List.range B).map ((n * B) + ·)))
        = List.flatMap [n] (fun i => (List.range B).map fun j => f (B * i + j)) := by
      simp only [List.flatMap_cons, List.flatMap_nil, List.append_nil, List.map_map]
      apply List.map_congr_left
      intro j _
      simp [Function.comp, Nat.mul_comm]
    rw [Nat.succ_mul, List.range_add, List.map_append, range_mul_flatMap B f n,
      List.range_succ, List.flatMap_append, h2]

/-- Claim C8: the `ucode.ino` programming sweep visits every address of
the 8192-byte device range in ascending order — banks `0..3` of 512
addresses written with `getOutputByte`, then `[2048, 8192)` written with
the zero byte, which equals `getOutputByte` there — and each 16-bit
address is presented most-significant bit first (high byte then low
byte). -/
theorem claim_C8_programming_sweep :
    Ucode.programWrites =
      (List.range 8192).map
        (fun a => (a, if a < 2048 then Ucode.getOutputByte a else 0)) ∧
    (∀ a, a < 8192 →
      (if a < 2048 then Ucode.getOutputByte a else 0) = Ucode.getOutputByte a) ∧
    (∀ a, Ucode.writeEepromAddressBits a =
      (List.range 16).map fun k => a.testBit (15 - k)) := by
  refine ⟨?_, ?_, ?_⟩
  · unfold Ucode.programWrites
    rw [show (8192 : Nat) = 2048 + 6144 from rfl, List.range_add, List.map_append]
    have hblk : ∀ i, i < 4 →
        ((List.range 512).map fun j =>
            ((i <<< 9) ||| j, Ucode.getOutputByte ((i <<< 9) ||| j)))
          = (List.range 512).map fun j =>
              (512 * i + j,
                if 512 * i + j < 2048 then Ucode.getOutputByte (512 * i + j) else 0) := by
      intro i hi
      apply List.map_congr_left
      intro j hj
      have hj' := List.mem_range.mp hj
      rw [Ucode.shiftOr_eq i hi j hj', if_pos (by omega)]
    have h1 : ((List.range 4).flatMap fun i =>
        (List.range 512).map fun j =>
          ((i <<< 9) ||| j, Ucode.getOutputByte ((i <<< 9) ||| j)))
        = (List.range 2048).map
            (fun a => (a, if a < 2048 then Ucode.getOutputByte a else 0)) := by
      rw [show (2048 : Nat) = 4 * 512 from rfl, range_mul_flatMap]
      rw [show List.range 4 = [0, 1, 2, 3] from rfl]
      simp only [List.flatMap_cons, List.flatMap_nil, List.append_nil]
      rw [hblk 0 (by norm_num), hblk 1 (by norm_num), hblk 2 (by norm_num),
        hblk 3 (by norm_num)]
    have h3 : ((List.range' 2048 6144).map fun i => (i, (0 : Nat)))
        = ((List.range 6144).map (2048 + ·)).map
            (fun a => (a, if a < 2048 then Ucode.getOutputByte a else 0)) := by
      rw [List.range'_eq_map_range, List.map_map, List.map_map]
      apply List.map_congr_left
      intro j _
      simp only [Function.comp]
      rw [if_neg (by omega)]
    rw [h1, h3]
  · intro a _
    by_cases h : a < 2048
    · rw [if_pos h]
    · rw [if_neg h, Ucode.getOutputByte_high a (by omega)]
  · intro a
    simp only [Ucode.writeEepromAddressBits, shiftOutMSBFirst]
    rw [show List.range 16
        = [0, 1, 2, 3, 4, 5, 6, 7, 8, 9, 10, 11, 12, 13, 14, 15] from rfl]
    simp only [List.map_cons, List.map_nil, List.cons_append, List.nil_append]
    simp only [show (256 : Nat) = 2 ^ 8 from rfl, Nat.testBit_mod_two_pow,
      Nat.testBit_shiftRight]
    norm_num

/-- Witness for C8: the written byte at address 4096 equals the encoder
output there. -/
theorem claim_C8_witness :
    (if 4096 < 2048 then Ucode.getOutputByte 4096 else 0) = Ucode.getOutputByte 4096 :=
  claim_C8_programming_sweep.2.1 4096 (by norm_num)
